/-
Verification of the task-app frontend (frontend/src/lib/types.ts, api.ts,
components/TaskForm.tsx, components/TaskList, app/page.tsx) and of the
backend contracts written down in the repository's own spec files
(specs/features/task-crud.md, the authentication feature spec).

The client code is JavaScript/TypeScript; it is embedded here as total
Lean functions over `List Char` (JS strings), with JS runtime exceptions
made explicit through `Except JsError`.  The backend has no implementation
in the repository, only written specifications; the definitions for it are
marked `Modelled from the spec:` and follow those documents' words.
-/
import Mathlib

/-! ## JavaScript value model -/

/-- Possible JS runtime exceptions raised by the primitives used in
`decodeJWT`: property access on `undefined` (TypeError), `atob` on a bad
base64 string (InvalidCharacterError), `decodeURIComponent` on a malformed
percent-encoding (URIError), `JSON.parse` on bad JSON (SyntaxError). -/
inductive JsError where
  | typeError
  | invalidCharacterError
  | uriError
  | syntaxError
deriving DecidableEq

/-- A JSON value as produced by `JSON.parse`, together with `undefined`
(the result of reading an absent property).  Numbers are kept exactly as
`mantissa * 10 ^ exp10`, which is faithful for every payload this
development evaluates. -/
inductive JsValue where
  | undefined
  | null
  | bool (b : Bool)
  | num (mantissa : Int) (exp10 : Int)
  | str (s : List Char)
  | arr (elems : List JsValue)
  | obj (fields : List (List Char × JsValue))

/-- JS truthiness: `undefined`, `null`, `false`, `0` and the empty string
are falsy; every other value (including any object or array) is truthy. -/
def truthy : JsValue → Bool
  | .undefined => false
  | .null => false
  | .bool b => b
  | .num m _ => decide (m ≠ 0)
  | .str s => decide (s ≠ [])
  | .arr _ => true
  | .obj _ => true

/-- Property read `v[name]` on a parsed JSON value: on an object the last
binding wins (as in `JSON.parse` duplicate-key handling); on any other
value the named property is absent, i.e. `undefined`.  (Reads on
`null`/`undefined` would throw in JS; every read in the embedded code is
guarded by a truthiness check, so that case is unreachable.) -/
def getProp (v : JsValue) (name : List Char) : JsValue :=
  match v with
  | .obj fields =>
    match fields.reverse.lookup name with
    | some w => w
    | none => .undefined
  | _ => .undefined

/-! ## Character-level string primitives (JS semantics) -/

/-- JS `String.prototype.split` with a single-character separator. -/
def jsSplit (sep : Char) : List Char → List (List Char)
  | [] => [[]]
  | c :: cs =>
    let r := jsSplit sep cs
    if c = sep then [] :: r
    else
      match r with
      | [] => [[c]]
      | h :: t => (c :: h) :: t

/-- ASCII lower-casing of one character, the fragment of
`String.prototype.toLowerCase` exercised by the code under test. -/
def chLower (c : Char) : Char :=
  if 'A' ≤ c ∧ c ≤ 'Z' then Char.ofNat (c.toNat + 32) else c

/-- JS `String.prototype.toLowerCase` (ASCII fragment). -/
def toLowerCh (s : List Char) : List Char := s.map chLower

/-- Whitespace removed by JS `String.prototype.trim` (the ASCII blanks
plus NBSP and BOM; the exotic Unicode space separators never appear in the
inputs considered here). -/
def isJsTrimWs (c : Char) : Bool :=
  c = ' ' || c = '\t' || c = '\n' || c = '\r' ||
  c = Char.ofNat 0x0b || c = Char.ofNat 0x0c ||
  c = Char.ofNat 0xa0 || c = Char.ofNat 0xfeff

/-- JS `String.prototype.trim`. -/
def jsTrim (s : List Char) : List Char :=
  ((s.dropWhile isJsTrimWs).reverse.dropWhile isJsTrimWs).reverse

/-- Whether `needle` occurs at the start of `hay`. -/
def startsWithCh : List Char → List Char → Bool
  | _, [] => true
  | [], _ :: _ => false
  | a :: as, b :: bs => a = b && startsWithCh as bs

/-- JS `String.prototype.includes`: `containsCh hay needle` is true iff
`needle` occurs contiguously inside `hay`. -/
def containsCh : List Char → List Char → Bool
  | hay, needle =>
    startsWithCh hay needle ||
      match hay with
      | [] => false
      | _ :: t => containsCh t needle

/-! ## `atob` (forgiving base64 decode, HTML spec) -/

/-- Value of one base64 alphabet character. -/
def b64Val (c : Char) : Option Nat :=
  if 'A' ≤ c ∧ c ≤ 'Z' then some (c.toNat - 65)
  else if 'a' ≤ c ∧ c ≤ 'z' then some (c.toNat - 71)
  else if '0' ≤ c ∧ c ≤ '9' then some (c.toNat + 4)
  else if c = '+' then some 62
  else if c = '/' then some 63
  else none

/-- ASCII whitespace stripped by forgiving-base64. -/
def isB64Ws (c : Char) : Bool :=
  c = ' ' || c = '\t' || c = '\n' || c = '\r' || c = Char.ofNat 0x0c

/-- Strip one or two trailing `=` padding characters. -/
def dropB64Pad (s : List Char) : List Char :=
  match s.reverse with
  | '=' :: '=' :: rest => rest.reverse
  | '=' :: rest => rest.reverse
  | _ => s

/-- Decode a cleaned base64 character list (whitespace and padding already
removed, all characters known valid) into byte values. -/
def atobChunks : List Char → List Nat
  | c1 :: c2 :: c3 :: c4 :: rest =>
    let v1 := (b64Val c1).getD 0
    let v2 := (b64Val c2).getD 0
    let v3 := (b64Val c3).getD 0
    let v4 := (b64Val c4).getD 0
    (v1 * 4 + v2 / 16) :: (v2 % 16 * 16 + v3 / 4) :: (v3 % 4 * 64 + v4) ::
      atobChunks rest
  | [c1, c2, c3] =>
    let v1 := (b64Val c1).getD 0
    let v2 := (b64Val c2).getD 0
    let v3 := (b64Val c3).getD 0
    [v1 * 4 + v2 / 16, v2 % 16 * 16 + v3 / 4]
  | [c1, c2] =>
    let v1 := (b64Val c1).getD 0
    let v2 := (b64Val c2).getD 0
    [v1 * 4 + v2 / 16]
  | _ => []

/-- JS `window.atob`: forgiving-base64 decode to a byte list, throwing
InvalidCharacterError on bad input. -/
def atob (s : List Char) : Except JsError (List Nat) :=
  let d0 := s.filter (fun c => !isB64Ws c)
  let d := if d0.length % 4 = 0 then dropB64Pad d0 else d0
  if d.length % 4 = 1 then .error .invalidCharacterError
  else if d.any (fun c => (b64Val c).isNone) then .error .invalidCharacterError
  else .ok (atobChunks d)

/-! ## `decodeURIComponent` over percent-encoded bytes

The source maps every byte of the `atob` output to `%xx` and feeds the
result to `decodeURIComponent`; the net effect is a strict UTF-8 decode of
the byte list, with URIError on any malformed sequence. -/

/-- Whether a byte is a UTF-8 continuation byte. -/
def isCont (b : Nat) : Bool := 0x80 ≤ b && b ≤ 0xbf

/-- Strict UTF-8 decode (rejects overlong forms, surrogates and values
above U+10FFFF, as `decodeURIComponent` does). -/
def utf8Decode : List Nat → Except JsError (List Char)
  | [] => .ok []
  | b :: rest =>
    if b ≤ 0x7f then
      (utf8Decode rest).map (fun t => Char.ofNat b :: t)
    else if 0xc2 ≤ b ∧ b ≤ 0xdf then
      match rest with
      | b2 :: rest2 =>
        if isCont b2 then
          (utf8Decode rest2).map
            (fun t => Char.ofNat ((b - 0xc0) * 64 + (b2 - 0x80)) :: t)
        else .error .uriError
      | [] => .error .uriError
    else if 0xe0 ≤ b ∧ b ≤ 0xef then
      match rest with
      | b2 :: b3 :: rest3 =>
        let lo2 := if b = 0xe0 then 0xa0 else 0x80
        let hi2 := if b = 0xed then 0x9f else 0xbf
        if lo2 ≤ b2 ∧ b2 ≤ hi2 ∧ isCont b3 then
          (utf8Decode rest3).map
            (fun t =>
              Char.ofNat ((b - 0xe0) * 4096 + (b2 - 0x80) * 64 + (b3 - 0x80)) :: t)
        else .error .uriError
      | _ => .error .uriError
    else if 0xf0 ≤ b ∧ b ≤ 0xf4 then
      match rest with
      | b2 :: b3 :: b4 :: rest4 =>
        let lo2 := if b = 0xf0 then 0x90 else 0x80
        let hi2 := if b = 0xf4 then 0x8f else 0xbf
        if lo2 ≤ b2 ∧ b2 ≤ hi2 ∧ isCont b3 ∧ isCont b4 then
          (utf8Decode rest4).map
            (fun t =>
              Char.ofNat
                ((b - 0xf0) * 262144 + (b2 - 0x80) * 4096 +
                  (b3 - 0x80) * 64 + (b4 - 0x80)) :: t)
        else .error .uriError
      | _ => .error .uriError
    else .error .uriError

/-! ## `JSON.parse` -/

/-- JSON insignificant whitespace. -/
def isJsonWs (c : Char) : Bool :=
  c = ' ' || c = '\t' || c = '\n' || c = '\r'

/-- Skip JSON whitespace. -/
def skipJsonWs (cs : List Char) : List Char := cs.dropWhile isJsonWs

/-- Value of a hexadecimal digit. -/
def hexVal (c : Char) : Option Nat :=
  if '0' ≤ c ∧ c ≤ '9' then some (c.toNat - 48)
  else if 'a' ≤ c ∧ c ≤ 'f' then some (c.toNat - 87)
  else if 'A' ≤ c ∧ c ≤ 'F' then some (c.toNat - 55)
  else none

/-- Parse the remainder of a JSON string literal (the opening quote is
already consumed): returns the decoded characters and the input after the
closing quote. -/
def parseStringRest : List Char → Except JsError (List Char × List Char)
  | [] => .error .syntaxError
  | '"' :: rest => .ok ([], rest)
  | '\\' :: esc =>
    match esc with
    | '"' :: r => (parseStringRest r).map (fun (s, t) => ('"' :: s, t))
    | '\\' :: r => (parseStringRest r).map (fun (s, t) => ('\\' :: s, t))
    | '/' :: r => (parseStringRest r).map (fun (s, t) => ('/' :: s, t))
    | 'b' :: r => (parseStringRest r).map (fun (s, t) => (Char.ofNat 8 :: s, t))
    | 'f' :: r => (parseStringRest r).map (fun (s, t) => (Char.ofNat 12 :: s, t))
    | 'n' :: r => (parseStringRest r).map (fun (s, t) => ('\n' :: s, t))
    | 'r' :: r => (parseStringRest r).map (fun (s, t) => ('\r' :: s, t))
    | 't' :: r => (parseStringRest r).map (fun (s, t) => ('\t' :: s, t))
    | 'u' :: h1 :: h2 :: h3 :: h4 :: r =>
      match hexVal h1, hexVal h2, hexVal h3, hexVal h4 with
      | some v1, some v2, some v3, some v4 =>
        (parseStringRest r).map
          (fun (s, t) => (Char.ofNat (v1 * 4096 + v2 * 256 + v3 * 16 + v4) :: s, t))
      | _, _, _, _ => .error .syntaxError
    | _ => .error .syntaxError
  | c :: rest =>
    if c.toNat < 0x20 then .error .syntaxError
    else (parseStringRest rest).map (fun (s, t) => (c :: s, t))

/-- Numeric value of a digit run. -/
def digitsToNat (ds : List Char) : Nat :=
  ds.foldl (fun a c => a * 10 + (c.toNat - 48)) 0

/-- Parse a JSON number (strict JSON grammar): returns its exact value as
`mantissa * 10 ^ exp10` together with the remaining input. -/
def parseNumberBody (cs : List Char) : Except JsError ((Int × Int) × List Char) :=
  let (neg, cs1) :=
    match cs with
    | '-' :: t => (true, t)
    | _ => (false, cs)
  let intRes : Except JsError (List Char × List Char) :=
    match cs1 with
    | '0' :: t => .ok (['0'], t)
    | c :: t =>
      if '1' ≤ c ∧ c ≤ '9' then .ok (c :: t.takeWhile Char.isDigit, t.dropWhile Char.isDigit)
      else .error .syntaxError
    | [] => .error .syntaxError
  match intRes with
  | .error e => .error e
  | .ok (intDs, rest1) =>
    let fracRes : Except JsError (List Char × List Char) :=
      match rest1 with
      | '.' :: t =>
        let ds := t.takeWhile Char.isDigit
        if ds.isEmpty then .error .syntaxError
        else .ok (ds, t.dropWhile Char.isDigit)
      | _ => .ok ([], rest1)
    match fracRes with
    | .error e => .error e
    | .ok (fracDs, rest2) =>
      let expRes : Except JsError (Int × List Char) :=
        match rest2 with
        | 'e' :: t | 'E' :: t =>
          let (eneg, t1) :=
            match t with
            | '-' :: u => (true, u)
            | '+' :: u => (false, u)
            | _ => (false, t)
          let ds := t1.takeWhile Char.isDigit
          if ds.isEmpty then .error .syntaxError
          else
            let e : Int := Int.ofNat (digitsToNat ds)
            .ok (if eneg then -e else e, t1.dropWhile Char.isDigit)
        | _ => .ok (0, rest2)
      match expRes with
      | .error e => .error e
      | .ok (expV, rest3) =>
        let mAbs : Int := Int.ofNat (digitsToNat (intDs ++ fracDs))
        let m := if neg then -mAbs else mAbs
        .ok ((m, expV - Int.ofNat fracDs.length), rest3)

/-- Parse one JSON value (recursive descent, fueled; the fuel used by
`jsonParse` can never run out before the input does). -/
def parseValue : Nat → List Char → Except JsError (JsValue × List Char)
  | 0, _ => .error .syntaxError
  | fuel + 1, cs =>
    match skipJsonWs cs with
    | [] => .error .syntaxError
    | 'n' :: 'u' :: 'l' :: 'l' :: rest => .ok (.null, rest)
    | 't' :: 'r' :: 'u' :: 'e' :: rest => .ok (.bool true, rest)
    | 'f' :: 'a' :: 'l' :: 's' :: 'e' :: rest => .ok (.bool false, rest)
    | '"' :: rest => (parseStringRest rest).map (fun (s, r) => (.str s, r))
    | '[' :: rest =>
      (match skipJsonWs rest with
      | ']' :: r2 => .ok (.arr [], r2)
      | r1 => do
        let (v, r2) ← parseValue fuel r1
        match skipJsonWs r2 with
        | ',' :: r3 =>
          (match skipJsonWs r3 with
          | ']' :: _ => .error .syntaxError
          | ',' :: _ => .error .syntaxError
          | _ => do
            match ← parseValue fuel ('[' :: r3) with
            | (.arr vs, r4) => .ok (.arr (v :: vs), r4)
            | _ => .error .syntaxError)
        | ']' :: r3 => .ok (.arr [v], r3)
        | _ => .error .syntaxError)
    | '{' :: rest =>
      (match skipJsonWs rest with
      | '}' :: r2 => .ok (.obj [], r2)
      | '"' :: r1 => do
        let (k, r2) ← parseStringRest r1
        match skipJsonWs r2 with
        | ':' :: r3 => do
          let (v, r4) ← parseValue fuel r3
          match skipJsonWs r4 with
          | ',' :: r5 =>
            (match skipJsonWs r5 with
            | '"' :: _ => do
              match ← parseValue fuel ('{' :: r5) with
              | (.obj fs, r6) => .ok (.obj ((k, v) :: fs), r6)
              | _ => .error .syntaxError
            | _ => .error .syntaxError)
          | '}' :: r5 => .ok (.obj [(k, v)], r5)
          | _ => .error .syntaxError
        | _ => .error .syntaxError
      | _ => .error .syntaxError)
    | c :: rest =>
      if c = '-' ∨ c.isDigit then
        (parseNumberBody (c :: rest)).map (fun (p, r) => (.num p.1 p.2, r))
      else .error .syntaxError

/-- JS `JSON.parse`: parse one value, allow only trailing whitespace. -/
def jsonParse (s : List Char) : Except JsError JsValue := do
  let (v, rest) ← parseValue (s.length + 1) s
  if (skipJsonWs rest).isEmpty then .ok v else .error .syntaxError

/-! ## `decodeJWT` (types.ts lines 67-81) -/

/-- The body of `decodeJWT`'s `try` block, with each JS runtime exception
made explicit: take segment 1 of the token split on dots (`undefined` if
absent, so the subsequent `.replace` throws TypeError), translate the
base64url alphabet, `atob`, percent-decode the bytes
(`decodeURIComponent`, i.e. strict UTF-8), then `JSON.parse`. -/
def decodeJWTUncaught (token : String) : Except JsError JsValue := do
  let parts := jsSplit '.' token.data
  match parts[1]? with
  | none => .error .typeError
  | some base64Url =>
    let base64 := base64Url.map
      (fun c => if c = '-' then '+' else if c = '_' then '/' else c)
    let bytes ← atob base64
    let jsonPayload ← utf8Decode bytes
    jsonParse jsonPayload

/-- `decodeJWT` from types.ts: the `try`/`catch` wrapper — any exception
in the body is caught and `null` is returned. -/
def decodeJWT (token : String) : JsValue :=
  match decodeJWTUncaught token with
  | .ok v => v
  | .error _ => .null


/-! ## Client session state (types.ts `checkSession`, lines 96-131) -/

/-- The `user` object put into the session by `checkSession`.  The fields
hold whatever JS values the decoded payload carried. -/
structure SessionUser where
  id : JsValue
  email : JsValue

/-- The session value exposed by `useSession`. -/
structure Session where
  user : SessionUser

/-- Net result of one `checkSession` run: the session data it sets and the
content of `localStorage.auth_token` afterwards. -/
structure CheckSessionResult where
  data : Option Session
  storageAfter : Option String

/-- The key of the `user_id` payload field. -/
def userIdKey : List Char := "user_id".data

/-- The key of the `email` payload field. -/
def emailKey : List Char := "email".data

/-- `checkSession` from types.ts: read the stored token; if none, no
session.  Otherwise decode it; if the payload and its `user_id` and
`email` properties are all truthy, expose exactly those two values as the
session; otherwise remove the token from storage and expose no session.
The signature is never verified — only `decodeJWT` is consulted. -/
def checkSession (storage : Option String) : CheckSessionResult :=
  match storage with
  | none => ⟨none, none⟩
  | some token =>
    let payload := decodeJWT token
    if truthy payload && truthy (getProp payload userIdKey) &&
        truthy (getProp payload emailKey) then
      ⟨some ⟨⟨getProp payload userIdKey, getProp payload emailKey⟩⟩, some token⟩
    else
      ⟨none, none⟩

/-! ## Storage events and the interceptors (types.ts lines 134-229) -/

/-- The slice of a DOM event observed by `handleStorageChange`: its `key`
property.  A genuine cross-context `StorageEvent` for the token carries
`key = "auth_token"`; a bare `new Event('storage')` — what the code
dispatches after its own writes — has no `key` property at all. -/
structure EventLike where
  key : Option String

/-- The event produced by `new Event('storage')`: no `key` property
(reading it yields `undefined`). -/
def bareStorageEvent : EventLike := ⟨none⟩

/-- A native `StorageEvent` delivered to other browser contexts after a
write to `auth_token`. -/
def nativeStorageEvent : EventLike := ⟨some "auth_token"⟩

/-- `handleStorageChange` from types.ts (lines 137-141) as seen by one
observer: on an event whose `key` is `'auth_token'` it re-runs
`checkSession` against current storage; on any other event the observer's
session view is left as it was. -/
def handleStorageChange (e : EventLike) (storage : Option String)
    (observed : Option Session) : Option Session :=
  if e.key = some "auth_token" then (checkSession storage).data else observed

/-- Browser-context state threaded through the handlers that write the
token: the stored token and the events dispatched on `window`. -/
structure BrowserState where
  storage : Option String
  dispatched : List EventLike

/-- `handleLogout` from app/page.tsx (lines 51-58):
`localStorage.removeItem('auth_token')` followed by
`window.dispatchEvent(new Event('storage'))`. -/
def handleLogout (st : BrowserState) : BrowserState :=
  { st with storage := none, dispatched := st.dispatched ++ [bareStorageEvent] }

/-- The response error interceptor of `apiAxiosClient` (types.ts lines
217-229): on a response with status 401 it removes the stored token and
dispatches `new Event('storage')`; on any other status it does nothing to
the browser state (the error is re-rejected either way). -/
def responseErrorInterceptor (status : Nat) (st : BrowserState) : BrowserState :=
  if status = 401 then
    { st with storage := none, dispatched := st.dispatched ++ [bareStorageEvent] }
  else st

/-- The headers of an outgoing axios request; `apiAxiosClient` is created
with no `Authorization` header. -/
structure AxiosHeaders where
  authorization : Option String

/-- The request interceptor of `apiAxiosClient` (types.ts lines 202-214):
read the token from storage and, if it is truthy (present and non-empty),
set `Authorization: Bearer <token>`; otherwise leave the headers alone. -/
def requestInterceptor (storage : Option String) (headers : AxiosHeaders) :
    AxiosHeaders :=
  match storage with
  | none => headers
  | some token =>
    if token = "" then headers
    else { headers with authorization := some ("Bearer " ++ token) }

/-! ## The API client (api.ts) -/

/-- The client-side task filter (types.ts lines 29-32). -/
structure TaskFilter where
  completed : Option Bool
  search : Option String

/-- One of the five task methods of `ApiClient` (api.ts lines 6-35),
with the arguments that shape its request. -/
inductive TaskOp where
  | getTasks (userId : String) (filter : Option TaskFilter)
  | createTask (userId : String)
  | getTask (userId taskId : String)
  | updateTask (userId taskId : String)
  | deleteTask (userId taskId : String)

/-- Query string built by `getTasks` via `URLSearchParams` (api.ts lines
8-13): `completed` first when set, then `search` when non-empty. -/
def getTasksQuery (filter : TaskFilter) : String :=
  let params : List String :=
    (match filter.completed with
     | some true => ["completed=true"]
     | some false => ["completed=false"]
     | none => []) ++
    (match filter.search with
     | some q => if q = "" then [] else ["search=" ++ q]
     | none => [])
  String.intercalate "&" params

/-- URL of each `ApiClient` task method (api.ts lines 6-35). -/
def taskOpUrl : TaskOp → String
  | .getTasks u f =>
    "/users/" ++ u ++ "/tasks" ++
      (match f with
       | some filter => "?" ++ getTasksQuery filter
       | none => "")
  | .createTask u => "/users/" ++ u ++ "/tasks"
  | .getTask u t => "/users/" ++ u ++ "/tasks/" ++ t
  | .updateTask u t => "/users/" ++ u ++ "/tasks/" ++ t
  | .deleteTask u t => "/users/" ++ u ++ "/tasks/" ++ t

/-- An outgoing request as it leaves `apiAxiosClient`. -/
structure OutgoingRequest where
  url : String
  headers : AxiosHeaders

/-- The request a task method of `ApiClient` puts on the wire: its URL and
the headers produced by the request interceptor from the base headers
(which carry no `Authorization`). -/
def sendTaskRequest (storage : Option String) (op : TaskOp) : OutgoingRequest :=
  ⟨taskOpUrl op, requestInterceptor storage ⟨none⟩⟩

/-! ## The task data model (types.ts lines 7-27) -/

/-- The `Task` interface of types.ts (the name `Task` itself is taken by the Lean core library): `description` is optional, everything
else required. -/
structure TaskRecord where
  id : String
  user_id : String
  title : String
  description : Option String
  completed : Bool
  created_at : String
  updated_at : String

/-- A partial update as defined in types.ts `TaskUpdate`. -/
structure TaskUpdate where
  title : Option String
  description : Option String
  completed : Option Bool

/-! ## Form validation (components/TaskForm.tsx `validateForm`, lines 22-37) -/

/-- The `newErrors` object built by `validateForm`. -/
structure FormErrors where
  title : Option String
  description : Option String

/-- `validateForm` from TaskForm.tsx: the title errors when its trimmed
form is empty, otherwise when its length falls outside 1..200; the
description errors when it is truthy (non-empty) and longer than 1000. -/
def validateForm (title description : String) : FormErrors :=
  let titleError : Option String :=
    if (jsTrim title.data).isEmpty then some "Title is required"
    else if title.data.length < 1 ∨ title.data.length > 200 then
      some "Title must be between 1 and 200 characters"
    else none
  let descriptionError : Option String :=
    if !description.data.isEmpty ∧ description.data.length > 1000 then
      some "Description must be less than 1000 characters"
    else none
  ⟨titleError, descriptionError⟩

/-- `validateForm`'s return value: true iff `newErrors` stayed empty, in
which case `handleSubmit` goes on to submit the form. -/
def formIsValid (title description : String) : Bool :=
  (validateForm title description).title = none &&
    (validateForm title description).description = none

/-! ## Task list filtering (TaskList `filteredTasks`, part_004 lines 31-47) -/

/-- The predicate of `filteredTasks` in the TaskList component: reject on
a set completion filter that disagrees; then, for a non-empty search
query, keep exactly the tasks whose lower-cased title — or truthy
lower-cased description — contains the lower-cased query. -/
def taskMatches (filter : TaskFilter) (searchQuery : String) (task : TaskRecord) :
    Bool :=
  if (match filter.completed with
      | some c => task.completed != c
      | none => false) then false
  else if searchQuery ≠ "" then
    let query := toLowerCh searchQuery.data
    containsCh (toLowerCh task.title.data) query ||
      (match task.description with
       | some d => !d.data.isEmpty && containsCh (toLowerCh d.data) query
       | none => false)
  else true

/-- `filteredTasks` from the TaskList component. -/
def filteredTasks (filter : TaskFilter) (searchQuery : String)
    (tasks : List TaskRecord) : List TaskRecord :=
  tasks.filter (taskMatches filter searchQuery)

/-! ## Dashboard counters (app/page.tsx lines 101-102) -/

/-- `completedTasks` from the dashboard: number of tasks with
`completed = true`. -/
def completedTasks (tasks : List TaskRecord) : Nat :=
  (tasks.filter (fun t => t.completed)).length

/-- `pendingTasks` from the dashboard: number of tasks with
`completed = false`. -/
def pendingTasks (tasks : List TaskRecord) : Nat :=
  (tasks.filter (fun t => !t.completed)).length

/-! ## Backend task API

The repository carries no backend implementation, only its written
specifications (specs/features/task-crud.md and the authentication feature
spec).  The definitions below are modelled from those documents. -/

/-- The error taxonomy of the task API as the repository documents it:
401 Unauthorized, 403 Forbidden, 400 validation error, 404 not found. -/
inductive ApiError where
  | unauthenticated
  | forbidden
  | validationError
  | notFound
deriving DecidableEq

/-- Modelled from the spec: the backend route guard is absent from the
source; the authentication feature spec prescribes "User ID Match: JWT
user_id must match URL user_id" with "403 Forbidden for user mismatch"
(and task-crud.md repeats "403 Forbidden for wrong user_id"), so the
guard compares the verified caller identity against the path's user id
and rejects a mismatch with `forbidden`. -/
def authorizeUser (callerId pathUserId : String) : Except ApiError Unit :=
  if callerId = pathUserId then .ok () else .error .forbidden

/-- Modelled from the spec: task-crud.md validation rules — title
required, 1-200 characters, trimmed; description optional, at most 1000
characters. -/
def validTaskFields (title description : Option String) : Bool :=
  (match title with
   | some t => !(jsTrim t.data).isEmpty && t.data.length ≤ 200
   | none => true) &&
  (match description with
   | some d => d.data.length ≤ 1000
   | none => true)

/-- Modelled from the spec: the repository's task listing — "Database
Isolation: Queries filtered by user_id", then the completion/search
narrowing whose semantics the in-source TaskList component gives
(`filteredTasks`). -/
def listTasks (ownerId : String) (filter : TaskFilter)
    (store : List TaskRecord) : List TaskRecord :=
  filteredTasks filter (filter.search.getD "")
    (store.filter (fun t => t.user_id == ownerId))

/-- Modelled from the spec: GET of one task — guard first (403 on path
mismatch), then look the id up among the rows of the path's user only;
"404 Not Found for non-existent task". -/
def getTaskHandler (callerId pathUserId taskId : String)
    (store : List TaskRecord) : Except ApiError TaskRecord := do
  authorizeUser callerId pathUserId
  match (store.filter (fun t => t.user_id == pathUserId)).find?
      (fun t => t.id == taskId) with
  | some t => .ok t
  | none => .error .notFound

/-- Apply a partial update, bumping `updated_at`. -/
def applyUpdate (upd : TaskUpdate) (now : String) (t : TaskRecord) :
    TaskRecord :=
  { t with
    title := upd.title.getD t.title
    description :=
      match upd.description with
      | some d => some d
      | none => t.description
    completed := upd.completed.getD t.completed
    updated_at := now }

/-- Modelled from the spec: PUT of one task — guard, ownership-scoped
lookup (404 when the row is not the path user's), re-validation of the
supplied fields, then the persisted update. -/
def updateTaskHandler (callerId pathUserId taskId : String)
    (upd : TaskUpdate) (now : String) (store : List TaskRecord) :
    Except ApiError (TaskRecord × List TaskRecord) := do
  authorizeUser callerId pathUserId
  match (store.filter (fun t => t.user_id == pathUserId)).find?
      (fun t => t.id == taskId) with
  | none => .error .notFound
  | some t =>
    if validTaskFields upd.title upd.description then
      let updated := applyUpdate upd now t
      .ok (updated,
        store.map (fun u =>
          if u.id == taskId && u.user_id == pathUserId then updated else u))
    else .error .validationError

/-- Modelled from the spec: DELETE of one task — guard, ownership-scoped
lookup (404 when the row is not the path user's), then removal. -/
def deleteTaskHandler (callerId pathUserId taskId : String)
    (store : List TaskRecord) : Except ApiError (List TaskRecord) := do
  authorizeUser callerId pathUserId
  match (store.filter (fun t => t.user_id == pathUserId)).find?
      (fun t => t.id == taskId) with
  | none => .error .notFound
  | some _ => .ok (store.filter (fun u => !(u.id == taskId && u.user_id == pathUserId)))

/-- Modelled from the spec: GET of the task list — guard, then the
user-scoped, filtered listing. -/
def listTasksHandler (callerId pathUserId : String) (filter : TaskFilter)
    (store : List TaskRecord) : Except ApiError (List TaskRecord) := do
  authorizeUser callerId pathUserId
  .ok (listTasks pathUserId filter store)

/-! ## Token codec

Token issuance and verification live in the backend/Better Auth and are
absent from the source; they are modelled from the design spec (issue
embeds `{userId, loginHandle, iat, exp = iat + ttl}` and signs the whole
payload with a server-held symmetric secret; verify reports Malformed,
then BadSignature, then Expired when `now ≥ exp`). -/

/-- The decoded claim carried by a token. -/
structure TokenPayload where
  user_id : String
  email : String
  iat : Nat
  exp : Nat
deriving DecidableEq

/-- Verification failures of the token codec. -/
inductive VerificationError where
  | malformed
  | badSignature
  | expired
deriving DecidableEq

/-- Numeric code of a string, input to the signing tag. -/
def strCode (s : String) : Nat :=
  s.data.foldl (fun a c => a * 1031 + c.toNat + 1) 7

/-- Modelled from the spec: an HMAC-class keyed tag covering the entire
payload.  The codec theorems depend only on the tag being a function of
secret and payload that verify recomputes, not on its cryptographic
strength. -/
def signTag (secret : Nat) (p : TokenPayload) : Nat :=
  ((strCode p.user_id * 3 + strCode p.email) * 1031 + p.iat) * 1031 +
    p.exp + secret * 2

/-- A structurally parsed token: payload plus signature tag. -/
structure SignedToken where
  payload : TokenPayload
  tag : Nat

/-- Modelled from the spec: `issue(userId, loginHandle, ttl)` — sign and
emit the payload `{userId, loginHandle, iat = now, exp = now + ttl}`. -/
def issueToken (secret : Nat) (userId email : String) (ttl now : Nat) :
    SignedToken :=
  ⟨⟨userId, email, now, now + ttl⟩, signTag secret ⟨userId, email, now, now + ttl⟩⟩

/-- Modelled from the spec: `verify(token)` — `malformed` when the string
does not parse into the token structure (`none` here), `badSignature`
when the recomputed tag differs, `expired` when `now ≥ exp`, and the
decoded payload otherwise. -/
def verifyToken (secret : Nat) (raw : Option SignedToken) (now : Nat) :
    Except VerificationError TokenPayload :=
  match raw with
  | none => .error .malformed
  | some t =>
    if t.tag ≠ signTag secret t.payload then .error .badSignature
    else if t.payload.exp ≤ now then .error .expired
    else .ok t.payload

/-! ## Theorems -/

/-- Claim C10: the dashboard's Completed and Pending counters partition
the rendered task list — the number of tasks with `completed = true` plus
the number with `completed = false` equals the total number of tasks. -/
theorem completed_pending_partition (tasks : List TaskRecord) :
    completedTasks tasks + pendingTasks tasks = tasks.length := by
  unfold completedTasks pendingTasks
  induction tasks with
  | nil => rfl
  | cons t ts ih =>
    by_cases h : t.completed <;>
      simp [List.filter_cons, h] <;> omega

/-- Claim C2: every task request of the ApiClient (getTasks, createTask,
getTask, updateTask, deleteTask) carries `Authorization: Bearer <token>`
when a token is stored, and no Authorization header at all when storage
holds none. -/
theorem taskRequest_auth_header (op : TaskOp) :
    (∀ t : String, t ≠ "" →
      (sendTaskRequest (some t) op).headers.authorization =
        some ("Bearer " ++ t)) ∧
    (sendTaskRequest none op).headers.authorization = none := by
  constructor
  · intro t ht
    simp [sendTaskRequest, requestInterceptor, ht]
  · rfl

/-- Concrete run of `taskRequest_auth_header`: a stored token "tok" rides
along as `Bearer tok`, an empty storage sends no header. -/
theorem taskRequest_auth_header_witness :
    ("tok" : String) ≠ "" ∧
    (sendTaskRequest (some "tok") (TaskOp.getTask "u1" "t1")).headers.authorization =
      some ("Bearer " ++ "tok") ∧
    (sendTaskRequest none (TaskOp.getTask "u1" "t1")).headers.authorization = none :=
  ⟨by decide,
   (taskRequest_auth_header (TaskOp.getTask "u1" "t1")).1 "tok" (by decide),
   (taskRequest_auth_header (TaskOp.getTask "u1" "t1")).2⟩

/-- Claim C3: a response with status 401 makes the response interceptor
clear the stored token; a response with any other status leaves the
stored token untouched. -/
theorem response401_clears_token (status : Nat) (st : BrowserState) :
    (status = 401 → (responseErrorInterceptor status st).storage = none) ∧
    (status ≠ 401 →
      (responseErrorInterceptor status st).storage = st.storage) := by
  constructor <;> intro h <;> simp [responseErrorInterceptor, h]

/-- Concrete run of `response401_clears_token`: 401 wipes the token,
500 keeps it. -/
theorem response401_clears_token_witness :
    (responseErrorInterceptor 401 ⟨some "tok", []⟩).storage = none ∧
    (responseErrorInterceptor 500 ⟨some "tok", []⟩).storage = some "tok" :=
  ⟨(response401_clears_token 401 ⟨some "tok", []⟩).1 rfl,
   (response401_clears_token 500 ⟨some "tok", []⟩).2 (by decide)⟩

/-- Claim C8: for every user id, login handle and ttl > 0, verifying a
token immediately after issuing it succeeds — no Malformed, BadSignature
or Expired — and returns the very userId and loginHandle that were
supplied. -/
theorem verify_after_issue (secret : Nat) (userId email : String)
    (ttl now : Nat) (h : 0 < ttl) :
    verifyToken secret (some (issueToken secret userId email ttl now)) now =
      .ok ⟨userId, email, now, now + ttl⟩ := by
  have h1 : ¬ (now + ttl ≤ now) := by omega
  simp [verifyToken, issueToken, h1]

/-- Concrete run of `verify_after_issue`. -/
theorem verify_after_issue_witness :
    0 < 3600 ∧
    verifyToken 42 (some (issueToken 42 "u1" "a@x.com" 3600 1000)) 1000 =
      .ok ⟨"u1", "a@x.com", 1000, 4600⟩ :=
  ⟨by decide, verify_after_issue 42 "u1" "a@x.com" 3600 1000 (by decide)⟩

/-- Claim C9: `decodeJWT` is total.  Its body can throw — a string with no
dot leaves segment 1 `undefined` (TypeError), invalid base64 makes `atob`
throw, a payload that is not JSON makes `JSON.parse` throw — and the
`catch` turns every such exception into `null`; a successful body is
returned as-is.  No input produces anything but a parsed payload value or
`null`. -/
theorem decodeJWT_total :
    (∀ token : String, ∀ e, decodeJWTUncaught token = .error e →
      decodeJWT token = .null) ∧
    (∀ token : String, ∀ v, decodeJWTUncaught token = .ok v →
      decodeJWT token = v) ∧
    decodeJWTUncaught "tok" = .error .typeError ∧
    decodeJWTUncaught "a.!!.c" = .error .invalidCharacterError ∧
    decodeJWTUncaught "a.bm90anNvbg==.c" = .error .syntaxError := by
  refine ⟨?_, ?_, rfl, rfl, rfl⟩
  · intro token e h
    unfold decodeJWT
    rw [h]
  · intro token v h
    unfold decodeJWT
    rw [h]

/-- Concrete runs of `decodeJWT_total`: each throwing input comes out as
`null`, and a well-formed token comes out as its parsed payload. -/
theorem decodeJWT_total_witness :
    decodeJWT "tok" = .null ∧
    decodeJWT "a.!!.c" = .null ∧
    decodeJWT "h.eyJ1c2VyX2lkIjoidTEiLCJlbWFpbCI6ImFAeC5jb20ifQ==.s" =
      .obj [("user_id".data, .str "u1".data), ("email".data, .str "a@x.com".data)] :=
  ⟨decodeJWT_total.1 "tok" .typeError rfl,
   decodeJWT_total.1 "a.!!.c" .invalidCharacterError rfl,
   decodeJWT_total.2.1 "h.eyJ1c2VyX2lkIjoidTEiLCJlbWFpbCI6ImFAeC5jb20ifQ==.s"
     (.obj [("user_id".data, .str "u1".data), ("email".data, .str "a@x.com".data)])
     rfl⟩

/-- Claim C4: on session load with a stored token — when the decoded
payload and its `user_id` and `email` are all present (truthy), the
session exposes exactly those two values and the token stays in storage;
when decoding fails or either field is missing, the session resolves to
none and the token is discarded from storage.  The outcome depends only
on the token's payload segment; the signature segment is never looked at,
let alone verified. -/
theorem checkSession_spec (token : String) :
    (truthy (decodeJWT token) = true →
     truthy (getProp (decodeJWT token) userIdKey) = true →
     truthy (getProp (decodeJWT token) emailKey) = true →
     checkSession (some token) =
       ⟨some ⟨⟨getProp (decodeJWT token) userIdKey,
               getProp (decodeJWT token) emailKey⟩⟩, some token⟩) ∧
    (¬(truthy (decodeJWT token) = true ∧
       truthy (getProp (decodeJWT token) userIdKey) = true ∧
       truthy (getProp (decodeJWT token) emailKey) = true) →
     checkSession (some token) = ⟨none, none⟩) ∧
    (∀ token' : String,
      (jsSplit '.' token.data)[1]? = (jsSplit '.' token'.data)[1]? →
      (checkSession (some token)).data = (checkSession (some token')).data) := by
  refine ⟨?_, ?_, ?_⟩
  · intro h1 h2 h3
    simp [checkSession, h1, h2, h3]
  · intro h
    cases hb : (truthy (decodeJWT token) &&
        truthy (getProp (decodeJWT token) userIdKey) &&
        truthy (getProp (decodeJWT token) emailKey)) with
    | false => simp [checkSession, hb]
    | true =>
      exact absurd (by simpa [Bool.and_eq_true, and_assoc] using hb) h
  · intro token' hseg
    have hun : decodeJWTUncaught token = decodeJWTUncaught token' := by
      simp only [decodeJWTUncaught]
      rw [hseg]
    have hdec : decodeJWT token = decodeJWT token' := by
      unfold decodeJWT
      rw [hun]
    simp only [checkSession, hdec]
    split <;> rfl

/-- A well-formed stored token whose payload is
`{"user_id":"u1","email":"a@x.com"}` (header and signature segments are
arbitrary — `checkSession` never reads them). -/
def tokOK : String := "h.eyJ1c2VyX2lkIjoidTEiLCJlbWFpbCI6ImFAeC5jb20ifQ==.s"

/-- Concrete runs of `checkSession_spec`: the good token above yields the
session `{id: "u1", email: "a@x.com"}` with the token kept; a
non-decodable token yields no session and an emptied storage. -/
theorem checkSession_spec_witness :
    truthy (decodeJWT tokOK) = true ∧
    checkSession (some tokOK) =
      ⟨some ⟨⟨.str "u1".data, .str "a@x.com".data⟩⟩, some tokOK⟩ ∧
    checkSession (some "garbage") = ⟨none, none⟩ :=
  ⟨rfl,
   (checkSession_spec tokOK).1 rfl rfl rfl,
   (checkSession_spec "garbage").2.1 (by decide)⟩

/-- Claim C5 fails in the code: `handleLogout` (like the 401 interceptor
and the signup page) clears the token and dispatches a bare
`new Event('storage')` — the code's own comment says this is meant to make
`useSession` re-check.  But that event has no `key` property, while
`handleStorageChange` only reacts to events with `key === 'auth_token'`;
so the observer in the very context that performed the write keeps
presenting the old session over an emptied storage.  A genuine
cross-context `StorageEvent` (which does carry the key) converges as
intended. -/
theorem logout_broadcast_ignored_in_writing_context :
    (handleLogout ⟨some tokOK, []⟩).storage = none ∧
    (handleLogout ⟨some tokOK, []⟩).dispatched = [bareStorageEvent] ∧
    bareStorageEvent.key = none ∧
    (checkSession (some tokOK)).data ≠ none ∧
    handleStorageChange bareStorageEvent none (checkSession (some tokOK)).data =
      (checkSession (some tokOK)).data ∧
    (checkSession none).data = none ∧
    handleStorageChange nativeStorageEvent none (checkSession (some tokOK)).data =
      none :=
  ⟨rfl, rfl, rfl, fun h => Option.noConfusion h, rfl, rfl, rfl⟩

/-- Claim C6 fails as stated on the code: the single-space title has
length 1 (within 1..200) and the empty description has length 0, yet
`validateForm` rejects the form — the title is trimmed first — so the
create is not submitted. -/
theorem validateForm_blank_title_counterexample :
    (" " : String).data.length = 1 ∧ ("" : String).data.length = 0 ∧
    formIsValid " " "" = false :=
  ⟨rfl, rfl, rfl⟩

/-- Claim C6 (amended): creation is submitted exactly when the title does
not trim to whitespace-only (equivalently, its trimmed form is
non-empty), the title is at most 200 characters, and the description is
at most 1000 characters. -/
theorem validateForm_iff (title description : String) :
    formIsValid title description = true ↔
      (jsTrim title.data ≠ [] ∧ title.data.length ≤ 200 ∧
        description.data.length ≤ 1000) := by
  constructor
  · intro h
    by_cases hA : (jsTrim title.data).isEmpty = true
    · exfalso
      simp [formIsValid, validateForm, hA] at h
    · by_cases hB : title.data.length < 1 ∨ title.data.length > 200
      · exfalso
        simp [formIsValid, validateForm, hA] at h
        have hlen : title.length = title.data.length := rfl
        rcases h with ⟨⟨hne0, hle⟩, -⟩
        omega
      · refine ⟨?_, by omega, ?_⟩
        · intro hnil
          exact hA (by simp [hnil])
        · by_contra hC
          have hC' : description.data.length > 1000 := by omega
          have hne : description.data.isEmpty = false := by
            cases hd : description.data with
            | nil => rw [hd] at hC'; simp at hC'
            | cons a l => rfl
          simp [formIsValid, validateForm, hA, hne] at h
          have hdlen : description.length = description.data.length := rfl
          rcases h with ⟨-, hdle⟩
          omega
  · rintro ⟨h1, h2, h3⟩
    have hA : (jsTrim title.data).isEmpty = false := by
      cases he : (jsTrim title.data).isEmpty
      · rfl
      · exact absurd (List.isEmpty_iff.mp he) h1
    have h1' : title.data.length ≥ 1 := by
      by_contra hlt
      have hz : title.data = [] := List.length_eq_zero.mp (by omega)
      exact h1 (by simp [jsTrim, hz])
    have hlen : title.length = title.data.length := rfl
    have hdlen : description.length = description.data.length := rfl
    simp [formIsValid, validateForm, hA]
    exact ⟨⟨by omega, by omega⟩, Or.inr (by omega)⟩

/-- Concrete run of `validateForm_iff`: a plain title submits. -/
theorem validateForm_iff_witness :
    formIsValid "Buy milk" "" = true :=
  (validateForm_iff "Buy milk" "").mpr ⟨by decide, by decide, by decide⟩

/-- Helper: every string starts with the empty needle. -/
theorem startsWithCh_nil_right (hay : List Char) : startsWithCh hay [] = true := by
  cases hay <;> rfl

/-- Helper: every string contains the empty needle. -/
theorem containsCh_nil_right (hay : List Char) : containsCh hay [] = true := by
  cases hay <;> simp [containsCh, startsWithCh_nil_right]

/-- Helper: the empty string contains only the empty needle. -/
theorem containsCh_nil_left (needle : List Char) (h : needle ≠ []) :
    containsCh [] needle = false := by
  cases needle with
  | nil => exact absurd rfl h
  | cons a l => rfl

/-- Helper: a string is the empty literal iff its character list is empty. -/
theorem string_eq_empty_iff (s : String) : s = "" ↔ s.data = [] := by
  constructor
  · intro h
    rw [h]
  · intro h
    have h2 : s = ⟨s.data⟩ := rfl
    rw [h2, h]

/-- The search narrowing of `taskMatches`, in the claim's phrasing: the
query — read case-insensitively — occurs in the title or in the
description. -/
def searchHits (t : TaskRecord) (q : String) : Prop :=
  containsCh (toLowerCh t.title.data) (toLowerCh q.data) = true ∨
    ∃ d, t.description = some d ∧
      containsCh (toLowerCh d.data) (toLowerCh q.data) = true

/-- A task as the claim describes membership in the listing: owned by the
given owner, matching the completion flag when one is supplied, and
matching the search string case-insensitively when one is supplied. -/
def specTaskVisible (ownerId : String) (f : TaskFilter) (t : TaskRecord) :
    Prop :=
  t.user_id = ownerId ∧
  (∀ c, f.completed = some c → t.completed = c) ∧
  (∀ q, f.search = some q → searchHits t q)

/-- Helper: the search part of `taskMatches` agrees with `searchHits`. -/
theorem searchPart_iff (t : TaskRecord) (q : String) :
    (if q ≠ "" then
       (containsCh (toLowerCh t.title.data) (toLowerCh q.data) ||
         (match t.description with
          | some d => !d.data.isEmpty && containsCh (toLowerCh d.data) (toLowerCh q.data)
          | none => false)) = true
     else True) ↔ searchHits t q := by
  by_cases hq : q = ""
  · subst hq
    simp [searchHits, containsCh_nil_right, toLowerCh]
  · have hqd : q.data ≠ [] := fun h => hq ((string_eq_empty_iff q).mpr h)
    have hql : toLowerCh q.data ≠ [] := by
      simp [toLowerCh, List.map_eq_nil_iff, hqd]
    simp only [hq, if_true, ne_eq, not_false_iff, if_pos, Bool.or_eq_true,
      searchHits]
    constructor
    · rintro (h | h)
      · exact Or.inl h
      · right
        cases hd : t.description with
        | none => rw [hd] at h; simp at h
        | some d =>
          rw [hd] at h
          simp only [Bool.and_eq_true] at h
          exact ⟨d, rfl, h.2⟩
    · rintro (h | ⟨d, hd, h⟩)
      · exact Or.inl h
      · right
        rw [hd]
        have hdt : d.data ≠ [] := by
          intro hnil
          rw [hnil, show toLowerCh [] = [] from rfl,
            containsCh_nil_left _ hql] at h
          exact Bool.noConfusion h
        simp only [Bool.and_eq_true]
        refine ⟨?_, h⟩
        cases hdd : d.data with
        | nil => exact absurd hdd hdt
        | cons a l => rfl

/-- Helper: `searchPart_iff` with the non-empty-query `if` resolved. -/
theorem searchPartQ_iff (t : TaskRecord) (q : String) (hq : q ≠ "") :
    (containsCh (toLowerCh t.title.data) (toLowerCh q.data) ||
      (match t.description with
       | some d => !d.data.isEmpty && containsCh (toLowerCh d.data) (toLowerCh q.data)
       | none => false)) = true ↔ searchHits t q := by
  have h := searchPart_iff t q
  rw [if_pos hq] at h
  exact h

/-- Helper: the search half of `taskMatches`, fed the query the backend
model derives from the filter, agrees with the claim's search clause. -/
theorem searchCond_iff (t : TaskRecord) (f : TaskFilter) :
    ((if (f.search.getD "") ≠ "" then
        containsCh (toLowerCh t.title.data) (toLowerCh (f.search.getD "").data) ||
          (match t.description with
           | some d => !d.data.isEmpty &&
               containsCh (toLowerCh d.data) (toLowerCh (f.search.getD "").data)
           | none => false)
      else true) = true) ↔ (∀ q, f.search = some q → searchHits t q) := by
  cases hs : f.search with
  | none =>
    simp
  | some q =>
    simp only [Option.getD_some]
    by_cases hq : q = ""
    · subst hq
      constructor
      · intro _ q' hq'
        injection hq' with h'
        subst h'
        exact Or.inl (containsCh_nil_right _)
      · intro _
        simp
    · rw [if_pos hq, searchPartQ_iff t q hq]
      constructor
      · intro h q' hq'
        injection hq' with h'
        subst h'
        exact h
      · intro h
        exact h q rfl

/-- Helper: `taskMatches` agrees with the claim's two narrowing clauses. -/
theorem taskMatches_iff (f : TaskFilter) (t : TaskRecord) :
    taskMatches f (f.search.getD "") t = true ↔
      ((∀ c, f.completed = some c → t.completed = c) ∧
       (∀ q, f.search = some q → searchHits t q)) := by
  unfold taskMatches
  cases hc : f.completed with
  | none =>
    simp only [Bool.false_eq_true, if_false]
    rw [searchCond_iff t f]
    constructor
    · intro h
      exact ⟨fun c hc' => Option.noConfusion hc', h⟩
    · rintro ⟨-, h⟩
      exact h
  | some c =>
    by_cases hcc : t.completed = c
    · simp only [hcc, bne_self_eq_false, Bool.false_eq_true, if_false]
      rw [searchCond_iff t f]
      constructor
      · intro h
        refine ⟨fun c' hc' => ?_, h⟩
        cases hc'
        rfl
      · rintro ⟨-, h⟩
        exact h
    · have hbne : (t.completed != c) = true := by
        simp [bne_iff_ne, hcc]
      simp only [hbne, if_true]
      constructor
      · intro h
        exact absurd h (by simp)
      · rintro ⟨h1, -⟩
        exact absurd (h1 c rfl) hcc

/-- Claim C7: a task appears in the listing exactly when it is one of the
stored tasks, belongs to the given owner, agrees with the completion flag
when one is supplied, and — when a search string is supplied — contains
it case-insensitively in its title or description. -/
theorem listTasks_mem_iff (ownerId : String) (f : TaskFilter)
    (store : List TaskRecord) (t : TaskRecord) :
    t ∈ listTasks ownerId f store ↔ t ∈ store ∧ specTaskVisible ownerId f t := by
  unfold listTasks filteredTasks specTaskVisible
  rw [List.mem_filter, List.mem_filter]
  constructor
  · rintro ⟨⟨hstore, howner⟩, hmatch⟩
    have hm := (taskMatches_iff f t).mp hmatch
    exact ⟨hstore, beq_iff_eq.mp howner, hm.1, hm.2⟩
  · rintro ⟨hstore, howner, h1, h2⟩
    exact ⟨⟨hstore, beq_iff_eq.mpr howner⟩, (taskMatches_iff f t).mpr ⟨h1, h2⟩⟩

/-- A stored task used in the concrete runs. -/
def groceriesTask : TaskRecord :=
  ⟨"t1", "A", "Buy Groceries", some "Milk and eggs", false, "2024-01-01", "2024-01-01"⟩

/-- Concrete run of `listTasks_mem_iff`: user A's open task shows up in
A's listing under the filter `completed=false`, `search="groc"`. -/
theorem listTasks_mem_iff_witness :
    groceriesTask ∈ listTasks "A" ⟨some false, some "groc"⟩ [groceriesTask] :=
  (listTasks_mem_iff "A" ⟨some false, some "groc"⟩ [groceriesTask] groceriesTask).mpr
    ⟨List.mem_singleton.mpr rfl, rfl,
     fun c hc => by cases hc; rfl,
     fun q hq => by
       injection hq with h
       subst h
       exact Or.inl (by decide)⟩

/-- A task of user A used in the cross-owner runs. -/
def taskA : TaskRecord :=
  ⟨"t1", "A", "Groceries", none, false, "2024-01-01", "2024-01-01"⟩

/-- Claim C1 fails on the repository's documented behavior: caller B,
with a verified identity, requests user A's task t1 where it lives — on
A's collection path — and the guard the repository's own specs prescribe
answers 403 Forbidden, not 404 NotFound. -/
theorem crossOwner_get_forbidden_counterexample :
    getTaskHandler "B" "A" "t1" [taskA] = .error .forbidden ∧
    updateTaskHandler "B" "A" "t1" ⟨none, none, none⟩ "now" [taskA] =
      .error .forbidden ∧
    deleteTaskHandler "B" "A" "t1" [taskA] = .error .forbidden ∧
    ApiError.forbidden ≠ ApiError.notFound :=
  ⟨rfl, rfl, rfl, by decide⟩

/-- Claim C1 (amended): a foreign task is never revealed, but the error
code depends on the path.  Under the caller's own path, get/update/delete
of an id the caller does not own answer NotFound — indistinguishable from
the task not existing — and the listing only ever contains the caller's
tasks.  Under any other user's path the guard answers Forbidden (403)
before consulting the store, as the repository's own specs prescribe. -/
theorem crossOwner_isolation (caller path tid : String) (upd : TaskUpdate)
    (now : String) (f : TaskFilter) (store : List TaskRecord) :
    (caller ≠ path →
      getTaskHandler caller path tid store = .error .forbidden ∧
      updateTaskHandler caller path tid upd now store = .error .forbidden ∧
      deleteTaskHandler caller path tid store = .error .forbidden ∧
      listTasksHandler caller path f store = .error .forbidden) ∧
    ((∀ t ∈ store, t.user_id = caller → t.id ≠ tid) →
      getTaskHandler caller caller tid store = .error .notFound ∧
      updateTaskHandler caller caller tid upd now store = .error .notFound ∧
      deleteTaskHandler caller caller tid store = .error .notFound) ∧
    (∀ l, listTasksHandler caller caller f store = .ok l →
      ∀ t ∈ l, t.user_id = caller) := by
  have haok : authorizeUser caller caller = .ok () := by
    simp [authorizeUser]
  refine ⟨?_, ?_, ?_⟩
  · intro h
    have ha : authorizeUser caller path = .error .forbidden := by
      simp [authorizeUser, h]
    refine ⟨?_, ?_, ?_, ?_⟩
    · unfold getTaskHandler
      rw [ha]
      rfl
    · unfold updateTaskHandler
      rw [ha]
      rfl
    · unfold deleteTaskHandler
      rw [ha]
      rfl
    · unfold listTasksHandler
      rw [ha]
      rfl
  · intro h
    have hfind : (store.filter (fun t => t.user_id == caller)).find?
        (fun t => t.id == tid) = none := by
      rw [List.find?_eq_none]
      intro x hx
      rw [List.mem_filter] at hx
      have hxu : x.user_id = caller := beq_iff_eq.mp hx.2
      have hne := h x hx.1 hxu
      simp [hne]
    refine ⟨?_, ?_, ?_⟩
    · unfold getTaskHandler
      rw [haok]
      show (match (store.filter (fun t => t.user_id == caller)).find?
          (fun t => t.id == tid) with
        | some t => Except.ok t
        | none => Except.error ApiError.notFound) = Except.error ApiError.notFound
      rw [hfind]
    · unfold updateTaskHandler
      rw [haok]
      show (match (store.filter (fun t => t.user_id == caller)).find?
          (fun t => t.id == tid) with
        | none => Except.error ApiError.notFound
        | some t =>
          if validTaskFields upd.title upd.description then
            Except.ok (applyUpdate upd now t,
              store.map (fun u =>
                if u.id == tid && u.user_id == caller then applyUpdate upd now t
                else u))
          else Except.error ApiError.validationError) =
        Except.error ApiError.notFound
      rw [hfind]
    · unfold deleteTaskHandler
      rw [haok]
      show (match (store.filter (fun t => t.user_id == caller)).find?
          (fun t => t.id == tid) with
        | none => Except.error ApiError.notFound
        | some _ =>
          Except.ok (store.filter (fun u => !(u.id == tid && u.user_id == caller)))) =
        Except.error ApiError.notFound
      rw [hfind]
  · intro l hl t htl
    have hl' : (Except.ok (listTasks caller f store) : Except ApiError _) =
        Except.ok l := by
      rw [← hl]
      unfold listTasksHandler
      rw [haok]
      rfl
    injection hl' with h'
    rw [← h'] at htl
    unfold listTasks filteredTasks at htl
    rw [List.mem_filter] at htl
    rw [List.mem_filter] at htl
    exact beq_iff_eq.mp htl.1.2

/-- Concrete run of `crossOwner_isolation`: caller B is refused with
Forbidden on A's path and told NotFound for A's task under B's own path;
B's listing is empty of A's task. -/
theorem crossOwner_isolation_witness :
    ("B" : String) ≠ "A" ∧
    getTaskHandler "B" "A" "t1" [taskA] = .error .forbidden ∧
    getTaskHandler "B" "B" "t1" [taskA] = .error .notFound ∧
    deleteTaskHandler "B" "B" "t1" [taskA] = .error .notFound :=
  ⟨by decide,
   ((crossOwner_isolation "B" "A" "t1" ⟨none, none, none⟩ "now" ⟨none, none⟩
       [taskA]).1 (by decide)).1,
   ((crossOwner_isolation "B" "B" "t1" ⟨none, none, none⟩ "now" ⟨none, none⟩
       [taskA]).2.1 (by decide)).1,
   ((crossOwner_isolation "B" "B" "t1" ⟨none, none, none⟩ "now" ⟨none, none⟩
       [taskA]).2.1 (by decide)).2.2⟩
